import Mathlib

/-!
Verification development for the Command Execution Gateway of the
AutoPentest repository.  The definitions below are a shallow embedding of
the Python sources:

* `backend/api/pending_commands.py` — command settings, the pending-command
  approval state machine and its opportunistic timeout sweep;
* `backend/api/commands.py` — credential-placeholder substitution feeding
  into execution;
* `backend/mcp/modules/mcp_classes.py` — the execution runner
  (`_run_command`, `_classify_error`) and container discovery with its
  TTL cache.

Timestamps are modelled as rational numbers of seconds (the Python code
compares `float` elapsed seconds against integer limits with `>`); database
rows are Lean structures; the database session is explicit state passing;
HTTP error responses are `Except` values.
-/

namespace AutoPentest

/-- Python's substring test `pat in s`, over character lists.
An empty pattern is contained in every string, as in Python. -/
def strContainsAux (pat : List Char) : List Char → Bool
  | [] => List.isPrefixOf pat []
  | c :: rest => List.isPrefixOf pat (c :: rest) || strContainsAux pat rest

/-- Python's `pat in s` on strings. -/
def strContains (s pat : String) : Bool :=
  strContainsAux pat.data s.data

/-- Python's `s.lower()`, character by character (the strings involved
here are ASCII). -/
def pyLower (s : String) : String :=
  String.mk (s.data.map Char.toLower)

/-! ## Data model (`models/pending_command.py`, `schemas/pending_command.py`) -/

/-- Execution result dict stored on an approved command
(`pending_commands.py` lines 368–373). -/
structure ExecJson where
  stdout : String
  stderr : String
  returncode : Int
  success : Bool
deriving DecidableEq, Repr

/-- Row of the `pending_commands` table (`models/pending_command.py`).
`status` is the literal string column (`pending`, `executed`, `rejected`,
`timeout`); timestamps are rational seconds; `timeout_seconds = none`
means "use the global setting". -/
structure PendingCommand where
  id : Nat
  assessment_id : Nat
  command : String
  phase : Option String
  matched_keywords : List String
  status : String
  resolved_by : Option String
  rejection_reason : Option String
  resolved_at : Option Rat
  execution_result : Option ExecJson
  created_at : Option Rat
  timeout_seconds : Option Int
deriving DecidableEq, Repr

/-- The `pending_commands` table contents, in insertion order. -/
structure Store where
  rows : List PendingCommand
deriving DecidableEq, Repr

/-! ## Command settings (`pending_commands.py` lines 30–56, 127–139) -/

/-- Default execution mode (`pending_commands.py` line 31). -/
def DEFAULT_EXECUTION_MODE : String := "open"

/-- Default filter keyword list (`pending_commands.py` line 32). -/
def DEFAULT_FILTER_KEYWORDS : List String :=
  ["rm", "delete", "drop", "truncate", "sudo", "chmod", "chown", "mkfs", "dd", "format"]

/-- Default pending-command timeout in seconds (`pending_commands.py` line 33). -/
def DEFAULT_TIMEOUT_SECONDS : Int := 30

/-- Snapshot of the three command settings. -/
structure CommandSettings where
  execution_mode : String
  filter_keywords : List String
  timeout_seconds : Int
deriving DecidableEq, Repr

/-- Embeds `get_command_settings` (`pending_commands.py` lines 38–56).
Each argument stands for the corresponding `platform_settings` row, already
decoded the way the Python does (`json.loads` for the keyword list, `int`
for the timeout); `none` means the row is absent, in which case the
hard-coded default is used. -/
def get_command_settings (modeRow : Option String) (keywordsRow : Option (List String))
    (timeoutRow : Option Int) : CommandSettings where
  execution_mode := modeRow.getD DEFAULT_EXECUTION_MODE
  filter_keywords := keywordsRow.getD DEFAULT_FILTER_KEYWORDS
  timeout_seconds := timeoutRow.getD DEFAULT_TIMEOUT_SECONDS

/-- Embeds the `GET /command-settings` handler `get_settings`
(`pending_commands.py` lines 127–139): the argument is the outcome of
reading the settings from the database; any exception (`.error`) is
absorbed and the hard-coded defaults are returned. -/
def get_settings (read : Except Unit CommandSettings) : CommandSettings :=
  match read with
  | .ok s => s
  | .error _ => ⟨DEFAULT_EXECUTION_MODE, DEFAULT_FILTER_KEYWORDS, DEFAULT_TIMEOUT_SECONDS⟩

/-! ## Timeout sweep (`pending_commands.py` lines 71–106) -/

/-- Auto-generated rejection reason used by the sweep
(`pending_commands.py` line 100). -/
def timeoutMessage (limit : Int) : String :=
  s!"Auto-cancelled: exceeded {limit}s timeout"

/-- Action of `check_and_timeout_expired_commands` on a single row: a
`pending` row whose elapsed time since `created_at` strictly exceeds its
own `timeout_seconds` (falling back to the global setting) becomes
`timeout`, with `resolved_at := now` and the auto-generated reason; rows
without `created_at` and all non-`pending` rows are untouched. -/
def sweepRow (now : Rat) (globalTimeout : Int) (cmd : PendingCommand) : PendingCommand :=
  if cmd.status = "pending" then
    let limit : Int := cmd.timeout_seconds.getD globalTimeout
    match cmd.created_at with
    | none => cmd
    | some t =>
      if now - t > (limit : Rat) then
        { cmd with
          status := "timeout"
          resolved_at := some now
          rejection_reason := some (timeoutMessage limit) }
      else cmd
  else cmd

/-- Embeds `check_and_timeout_expired_commands` (`pending_commands.py`
lines 71–106); `settings` is the snapshot the function reads via
`get_command_settings`. -/
def check_and_timeout_expired_commands (now : Rat) (settings : CommandSettings)
    (s : Store) : Store :=
  ⟨s.rows.map (sweepRow now settings.timeout_seconds)⟩

/-! ## Read endpoints (`pending_commands.py` lines 232–329) -/

/-- Error kinds of the HTTP endpoints, following the spec's taxonomy:
`NotFound` is the 404 response, `Conflict` the "Command is already …"
rejection of approve/reject on a non-`pending` row. -/
inductive ApiError
  | NotFound
  | Conflict
deriving DecidableEq, Repr

/-- Filter predicate of `list_pending_commands` (`pending_commands.py`
lines 244–248). -/
def listFilter (status_filter : Option String) (assessment_id : Option Nat)
    (c : PendingCommand) : Bool :=
  (match status_filter with | none => true | some st => c.status = st) &&
  (match assessment_id with | none => true | some a => c.assessment_id = a)

/-- Embeds `GET /pending-commands` (`pending_commands.py` lines 232–281):
runs the sweep first, then returns the filtered rows and the count of rows
still `pending`.  The response-side join with assessment names and the
`created_at DESC` presentation order are not modelled. -/
def list_pending_commands (now : Rat) (settings : CommandSettings)
    (status_filter : Option String) (assessment_id : Option Nat) (s : Store) :
    Store × List PendingCommand × Nat :=
  let s' := check_and_timeout_expired_commands now settings s
  (s', s'.rows.filter (listFilter status_filter assessment_id),
    (s'.rows.filter (fun c => c.status = "pending")).length)

/-- Embeds `GET /pending-commands/count` (`pending_commands.py` lines
284–293): runs the sweep first, then counts rows still `pending`. -/
def get_pending_count (now : Rat) (settings : CommandSettings) (s : Store) :
    Store × Nat :=
  let s' := check_and_timeout_expired_commands now settings s
  (s', (s'.rows.filter (fun c => c.status = "pending")).length)

/-- Embeds `GET /pending-commands/\x7bcommand_id\x7d` (`pending_commands.py`
lines 296–329): runs the sweep first, then looks the row up by id. -/
def get_pending_command (now : Rat) (settings : CommandSettings)
    (command_id : Nat) (s : Store) : Store × Except ApiError PendingCommand :=
  let s' := check_and_timeout_expired_commands now settings s
  match s'.rows.find? (fun c => c.id = command_id) with
  | none => (s', .error .NotFound)
  | some c => (s', .ok c)

/-! ## Approve / reject (`pending_commands.py` lines 331–487) -/

/-- Outcome of an approve/reject endpoint: the table after the call, the
HTTP response, and whether the container command was actually executed
during the call. -/
instance : DecidableEq (Except ApiError PendingCommand) := fun x y =>
  match x, y with
  | .ok a, .ok b =>
    if h : a = b then .isTrue (by rw [h]) else .isFalse (fun hh => h (Except.ok.inj hh))
  | .error a, .error b =>
    if h : a = b then .isTrue (by rw [h]) else .isFalse (fun hh => h (Except.error.inj hh))
  | .ok _, .error _ => .isFalse (fun hh => Except.noConfusion hh)
  | .error _, .ok _ => .isFalse (fun hh => Except.noConfusion hh)

structure OpResult where
  store : Store
  response : Except ApiError PendingCommand
  ranCommand : Bool
deriving DecidableEq, Repr

/-- Embeds `POST /pending-commands/\x7bid\x7d/approve` (`pending_commands.py`
lines 331–415).  `execResult` stands for the outcome of
`container_service.execute_and_log_command`, which the handler only invokes
after the `status == "pending"` precondition check (hence `ranCommand`). -/
def approve_command (command_id : Nat) (approved_by : String) (now : Rat)
    (execResult : ExecJson) (s : Store) : OpResult :=
  match s.rows.find? (fun c => c.id = command_id) with
  | none => ⟨s, .error .NotFound, false⟩
  | some cmd =>
    if cmd.status ≠ "pending" then ⟨s, .error .Conflict, false⟩
    else
      let cmd' := { cmd with
        status := "executed"
        resolved_by := some approved_by
        resolved_at := some now
        execution_result := some execResult }
      ⟨⟨s.rows.map (fun c => if c.id = command_id then cmd' else c)⟩, .ok cmd', true⟩

/-- Embeds `POST /pending-commands/\x7bid\x7d/reject` (`pending_commands.py`
lines 418–487).  Rejecting never executes the command. -/
def reject_command (command_id : Nat) (rejected_by : String)
    (reason : Option String) (now : Rat) (s : Store) : OpResult :=
  match s.rows.find? (fun c => c.id = command_id) with
  | none => ⟨s, .error .NotFound, false⟩
  | some cmd =>
    if cmd.status ≠ "pending" then ⟨s, .error .Conflict, false⟩
    else
      let cmd' := { cmd with
        status := "rejected"
        resolved_by := some rejected_by
        rejection_reason := reason
        resolved_at := some now }
      ⟨⟨s.rows.map (fun c => if c.id = command_id then cmd' else c)⟩, .ok cmd', false⟩

/-- Embeds `POST /pending-commands/create` (`pending_commands.py` lines
510–571): a new row starts `pending`, unresolved, with the timeout
snapshot taken from the current settings. -/
def create_pending_command (new_id : Nat) (assessment_id : Nat) (command : String)
    (phase : Option String) (matched_keywords : List String) (now : Rat)
    (settings : CommandSettings) (s : Store) : Store × PendingCommand :=
  let cmd : PendingCommand :=
    { id := new_id, assessment_id := assessment_id, command := command,
      phase := phase, matched_keywords := matched_keywords, status := "pending",
      resolved_by := none, rejection_reason := none, resolved_at := none,
      execution_result := none, created_at := some now,
      timeout_seconds := some settings.timeout_seconds }
  (⟨s.rows ++ [cmd]⟩, cmd)

/-! ## Error classification (`mcp_classes.py` lines 306–323) -/

/-- Embeds `AidaMCPService._classify_error` (`mcp_classes.py` lines
306–323), branch for branch. -/
def classify_error (returncode : Int) (stderr : String) : String :=
  if returncode = 127 then "command_not_found"
  else if returncode = 126 then "permission_denied"
  else if returncode = 2 then "invalid_arguments"
  else if strContains (pyLower stderr) "not found" then "command_not_found"
  else if strContains (pyLower stderr) "permission denied" then "permission_denied"
  else if strContains (pyLower stderr) "invalid" || strContains (pyLower stderr) "usage:" then
    "invalid_command"
  else if returncode ≠ 0 then "command_failed"
  else "success"

/-! ## Execution runner (`mcp_classes.py` lines 238–304) -/

/-- Behaviour of the spawned external process, the oracle against which
`_run_command` is embedded: the process either completes within the
timeout with a return code and raw outputs, exceeds the wall-clock
timeout, fails to spawn because the binary is missing, or raises another
exception. -/
inductive SpawnBehavior
  | completes (returncode : Int) (stdout stderr : String)
  | exceedsTimeout
  | spawnNotFound (msg : String)
  | raisesOther (msg : String)
deriving DecidableEq, Repr

/-- Result dict of `_run_command` (`mcp_classes.py` lines 259–304). -/
structure RunResult where
  success : Bool
  returncode : Int
  stdout : String
  stderr : String
  command : String
  error_type : String
  raw_error : Option String
deriving DecidableEq, Repr

/-- Embeds `AidaMCPService._run_command` (`mcp_classes.py` lines 238–304).
The second component records whether the spawned external process is gone
when the call returns: on completion it has exited by itself; on timeout
the handler calls `process.kill()` and awaits `process.communicate()`
before building the result; in the spawn-failure and generic exception
branches no child process was created. -/
def run_command (command : List String) (timeout : Rat) (b : SpawnBehavior) :
    RunResult × Bool :=
  let cmdStr := String.intercalate " " command
  match b with
  | .completes rc out err =>
    (⟨rc = 0, rc, out.trim, err.trim, cmdStr, classify_error rc err, none⟩, true)
  | .exceedsTimeout =>
    (⟨false, -1, "", s!"Command timed out after {timeout}s", cmdStr, "timeout",
      some s!"Timed out after {timeout}s"⟩, true)
  | .spawnNotFound msg =>
    let firstWord := command.headD ""
    (⟨false, -1, "", s!"Command not found: {firstWord}", cmdStr,
      "command_not_found", some msg⟩, true)
  | .raisesOther msg =>
    (⟨false, -1, "", s!"Execution failed: {msg}", cmdStr, "execution_failed", some msg⟩, true)

/-! ## Credential substitution (`commands.py` lines 101–179) -/

/-- Row of the `credentials` table (`models/credential.py`), restricted to
the fields the substitution reads.  `custom_data` holds the Python
`str()` rendering of the JSONB value when that value is truthy, and `none`
when the column is NULL or the value is falsy (the code only uses it
through `str(cred.custom_data or "")`). -/
structure Credential where
  assessment_id : Nat
  credential_type : String
  name : String
  placeholder : String
  token : Option String
  username : Option String
  password : Option String
  cookie_value : Option String
  custom_data : Option String
deriving DecidableEq, Repr

/-- Character class `[A-Z0-9_]` of the placeholder regex
(`commands.py` line 124). -/
def isPlaceholderChar (c : Char) : Bool :=
  c.isUpper || c.isDigit || c = '_'

/-- Left-to-right scan of `re.findall` for the placeholder pattern: two
opening braces, one or more name characters, two closing braces; on a
failed match the scan resumes one character further, and on a successful
match right after the consumed token.  The fuel argument makes the
recursion structural; every step consumes at least one character, so any
fuel at least the length of the input gives the scan's fixpoint. -/
def scanPlaceholdersAux : Nat → List Char → List String
  | 0, _ => []
  | fuel + 1, l =>
    match l with
    | '{' :: '{' :: rest =>
      let nm := rest.takeWhile isPlaceholderChar
      let rest' := rest.dropWhile isPlaceholderChar
      if !nm.isEmpty && rest'.take 2 = ['}', '}'] then
        String.mk nm :: scanPlaceholdersAux fuel (rest'.drop 2)
      else
        scanPlaceholdersAux fuel ('{' :: rest)
    | _ :: rest => scanPlaceholdersAux fuel rest
    | [] => []

/-- Placeholder names found in a command (`commands.py` line 124). -/
def scanPlaceholders (command : String) : List String :=
  scanPlaceholdersAux command.data.length command.data

/-- Python `s.strip` with the brace character set, used to normalise
stored placeholders (`commands.py` line 133). -/
def stripBraces (s : String) : String :=
  String.mk (((s.data.dropWhile fun c => c = '{' || c = '}').reverse.dropWhile
    fun c => c = '{' || c = '}').reverse)

/-- Lookup in the dict comprehension of `commands.py` line 133; a later
credential with the same stripped placeholder overrides an earlier one. -/
def credsMapLookup (credentials : List Credential) (nm : String) : Option Credential :=
  credentials.reverse.find? (fun c => stripBraces c.placeholder = nm)

/-- Python rendering of an optional string inside an f-string:
`None` becomes the literal string "None". -/
def pyStr (o : Option String) : String :=
  o.getD "None"

/-- Standard base64 alphabet. -/
def base64Table : List Char :=
  "ABCDEFGHIJKLMNOPQRSTUVWXYZabcdefghijklmnopqrstuvwxyz0123456789+/".data

/-- Character at an index of the base64 alphabet. -/
def base64Char (n : Nat) : Char :=
  base64Table.getD n '?'

/-- UTF-8 encoding of one character, as `str.encode` produces. -/
def utf8Bytes (c : Char) : List Nat :=
  let n := c.toNat
  if n < 128 then [n]
  else if n < 2048 then [192 + n / 64, 128 + n % 64]
  else if n < 65536 then [224 + n / 4096, 128 + (n / 64) % 64, 128 + n % 64]
  else [240 + n / 262144, 128 + (n / 4096) % 64, 128 + (n / 64) % 64, 128 + n % 64]

/-- Base64 encoding of a byte list, three bytes to four characters with
`=` padding, as `base64.b64encode` produces. -/
def b64EncodeBytes : List Nat → List Char
  | [] => []
  | [a] => [base64Char (a / 4), base64Char ((a % 4) * 16), '=', '=']
  | [a, b] =>
    [base64Char (a / 4), base64Char ((a % 4) * 16 + b / 16), base64Char ((b % 16) * 4), '=']
  | a :: b :: c :: rest =>
    base64Char (a / 4) :: base64Char ((a % 4) * 16 + b / 16) ::
      base64Char ((b % 16) * 4 + c / 64) :: base64Char (c % 64) :: b64EncodeBytes rest

/-- Embeds `base64.b64encode(auth_str.encode()).decode()`
(`commands.py` line 150). -/
def b64encode (s : String) : String :=
  String.mk (b64EncodeBytes (s.data.map utf8Bytes).flatten)

/-- Replacement value per credential type (`commands.py` lines 140–159).
`none` models the path where the Python would call `str.replace` with
`None` and crash with a `TypeError`: a `bearer_token`/`api_key` credential
whose `token` column is NULL, or a `cookie` whose `cookie_value` is NULL. -/
def replacementFor (cred : Credential) : Option String :=
  if cred.credential_type = "bearer_token" then cred.token
  else if cred.credential_type = "api_key" then cred.token
  else if cred.credential_type = "cookie" then cred.cookie_value
  else if cred.credential_type = "basic_auth" then
    some (b64encode (pyStr cred.username ++ ":" ++ pyStr cred.password))
  else if cred.credential_type = "ssh" then
    some (pyStr cred.username ++ ":" ++ pyStr cred.password)
  else if cred.credential_type = "custom" then
    some (match cred.token with
      | some t => if t = "" then cred.custom_data.getD "" else t
      | none => cred.custom_data.getD "")
  else some ""

/-- Python's `s.replace(old, new)` for a non-empty `old`, over character
lists: left-to-right, non-overlapping, every occurrence.  The fuel makes
the recursion structural; every step consumes at least one character. -/
def pyReplaceAux (old new : List Char) : Nat → List Char → List Char
  | _, [] => []
  | 0, l => l
  | fuel + 1, c :: rest =>
    if !old.isEmpty && List.isPrefixOf old (c :: rest) then
      new ++ pyReplaceAux old new fuel ((c :: rest).drop old.length)
    else
      c :: pyReplaceAux old new fuel rest

/-- Python's `s.replace(old, new)` on strings (`commands.py` line 162
always passes a non-empty pattern). -/
def pyReplace (s old new : String) : String :=
  String.mk (pyReplaceAux old.data new.data s.data.length s.data)

/-- The exact braced token rebuilt for replacement, as the f-string at
`commands.py` line 162 does. -/
def bracedToken (p : String) : String :=
  "\x7b\x7b" ++ p ++ "\x7d\x7d"

/-- Failure modes of the substitution block: a placeholder with no
matching credential (the 404 naming it, `commands.py` lines 165–168), or
the `TypeError` path of a NULL replacement value. -/
inductive SubstError
  | unresolved (placeholder : String)
  | typeError
deriving DecidableEq, Repr

/-- Substitution loop of `commands.py` lines 136–168: each found
placeholder in scan order is looked up and every occurrence of its exact
braced token is replaced; the first placeholder with no matching
credential aborts the whole request. -/
def substLoop (credentials : List Credential) : List String → String → Except SubstError String
  | [], cmd => .ok cmd
  | p :: rest, cmd =>
    match credsMapLookup credentials p with
    | none => .error (.unresolved p)
    | some cred =>
      match replacementFor cred with
      | none => .error .typeError
      | some r => substLoop credentials rest (pyReplace cmd (bracedToken p) r)

/-- Outcome of the endpoint: either the substituted command reaches
execution, or the request fails before any execution. -/
inductive ExecOutcome
  | executed (finalCommand : String)
  | failed (e : SubstError)
deriving DecidableEq, Repr

/-- Embeds the substitution section of `execute_command_with_credentials`
(`commands.py` lines 101–179): scan the command for placeholder tokens,
resolve each against the assessment's credentials, replace all
occurrences, and only then execute the substituted command; a failure
aborts the request before execution. -/
def execute_command_with_credentials (command : String)
    (credentials : List Credential) : ExecOutcome :=
  match substLoop credentials (scanPlaceholders command) command with
  | .ok c => .executed c
  | .error e => .failed e

/-! ## Container discovery (`mcp_classes.py` lines 458–507) -/

/-- Fields `discover_containers` reads from a parsed `docker ps` JSON
line. -/
structure DockerPsEntry where
  image : String
  names : String
  state : String
  id : String
  createdAt : String
deriving DecidableEq, Repr

/-- Cached container descriptor (`mcp_classes.py` lines 487–495). -/
structure ContainerInfo where
  name : String
  image : String
  status : String
  id : String
  created : String
deriving DecidableEq, Repr

/-- Discovery cache of `AidaMCPService` (`mcp_classes.py` lines 39–41). -/
structure CacheState where
  containers_cache : List ContainerInfo
  cache_timestamp : Rat
deriving DecidableEq, Repr

/-- Cache TTL in seconds (`mcp_classes.py` line 41). -/
def cache_ttl : Int := 30

/-- Per-line handling of `mcp_classes.py` lines 479–498: a line whose
JSON fails to parse (`none`) is skipped; a parsed entry is kept only when
its image name contains the Exegol signature, with the leading slashes of
the name stripped and the id cut to twelve characters. -/
def parseContainerLine (line : Option DockerPsEntry) : Option ContainerInfo :=
  match line with
  | none => none
  | some e =>
    if strContains (pyLower e.image) "exegol" ||
        strContains (pyLower e.image) "nwodtuhs/exegol" then
      some ⟨String.mk (e.names.data.dropWhile fun c => c = '/'), e.image, e.state,
            String.mk (e.id.data.take 12), e.createdAt⟩
    else none

/-- Outcome of the `docker ps -a --format json` invocation as seen by
`discover_containers`: `result` carries the `success` flag of the dict
`_run_command` returns (which absorbs spawn failures and timeouts into
`success = false`), whether its stdout was a non-empty string, and the
JSON parse results of the non-blank stdout lines; `raises` is the
defensive outer `except` branch. -/
inductive RunListOutcome
  | result (success : Bool) (stdoutNonempty : Bool) (lines : List (Option DockerPsEntry))
  | raises
deriving DecidableEq, Repr

/-- Container list computed from one runtime invocation
(`mcp_classes.py` lines 471–502): an unsuccessful command, an empty
stdout, or a raised exception all yield the empty list. -/
def dockerPsContainers : RunListOutcome → List ContainerInfo
  | .result success stdoutNonempty lines =>
    if success && stdoutNonempty then lines.filterMap parseContainerLine
    else []
  | .raises => []

/-- Embeds `discover_containers` (`mcp_classes.py` lines 458–507),
returning the container list, the new cache state, and whether the
runtime was invoked.  The cache is served only when no refresh is forced,
the cached list is non-empty (Python truthiness of
`self.containers_cache`), and it is younger than the TTL; on every other
call the runtime is invoked (`runtime` being its behaviour) and the cache
and its timestamp are replaced wholesale. -/
def discover_containers (st : CacheState) (now : Rat) (force_refresh : Bool)
    (runtime : RunListOutcome) : List ContainerInfo × CacheState × Bool :=
  if !force_refresh && !st.containers_cache.isEmpty &&
      now - st.cache_timestamp < (cache_ttl : Rat) then
    (st.containers_cache, st, false)
  else
    let containers := dockerPsContainers runtime
    (containers, ⟨containers, now⟩, true)

/-! ## Policy engine (spec section 4.4; code not under `src/`) -/

/-- Decision of the Policy Engine: run immediately, or queue a
PendingCommand carrying the matched keywords. -/
inductive PolicyDecision
  | execute_now
  | require_approval (matched_keywords : List String)
deriving DecidableEq, Repr

/-- Modelled from the spec: the Policy Engine operation
`classify(command, config)` of spec section 4.4 — the implementing code
(the MCP-side policy handler and `services/container_service.py`) is not
under `src/`, only its settings provider is.  `closed`: always require
approval with an empty matched set; `filter`: lower-case the command and
collect every configured keyword occurring in it as a substring,
requiring approval exactly when that set is non-empty; otherwise
(`open`): always execute immediately. -/
def classify (command : String) (config : CommandSettings) : PolicyDecision :=
  if config.execution_mode = "closed" then .require_approval []
  else if config.execution_mode = "filter" then
    let matched := config.filter_keywords.filter (fun k => strContains (pyLower command) k)
    if matched.isEmpty then .execute_now else .require_approval matched
  else .execute_now

/-! ## Theorems -/

/-- C4, counterexample: the claim's priority order does not match the
code.  A completion with return code 0 whose stderr contains "not found"
is classified `command_not_found`, not success (the stderr checks run for
every return code, including 0), and a nonzero code whose stderr contains
both "usage:" and "not found" is classified `command_not_found` rather
than invalid-arguments ("not found" is tested before "usage:"/"invalid"). -/
theorem classify_error_claim_boundary :
    classify_error 0 "not found" = "command_not_found" ∧
    classify_error 0 "not found" ≠ "success" ∧
    classify_error 1 "usage: x not found" = "command_not_found" := by
  decide

/-- C4, amended: on normal completion the classification follows the
code's priority order — return code 127 → `command_not_found`; 126 →
`permission_denied`; 2 → `invalid_arguments`; then, regardless of the
return code, stderr containing "not found" → `command_not_found`; stderr
containing "permission denied" → `permission_denied`; stderr containing
"invalid" or "usage:" → `invalid_command`; any other nonzero code →
`command_failed`; and return code 0 with none of the stderr patterns →
success. -/
theorem classify_error_spec (rc : Int) (stderr : String) :
    (rc = 127 → classify_error rc stderr = "command_not_found") ∧
    (rc = 126 → classify_error rc stderr = "permission_denied") ∧
    (rc = 2 → classify_error rc stderr = "invalid_arguments") ∧
    (rc ≠ 127 → rc ≠ 126 → rc ≠ 2 →
      (strContains (pyLower stderr) "not found" = true →
        classify_error rc stderr = "command_not_found") ∧
      (strContains (pyLower stderr) "not found" = false →
        strContains (pyLower stderr) "permission denied" = true →
        classify_error rc stderr = "permission_denied") ∧
      (strContains (pyLower stderr) "not found" = false →
        strContains (pyLower stderr) "permission denied" = false →
        (strContains (pyLower stderr) "invalid" = true ∨
          strContains (pyLower stderr) "usage:" = true) →
        classify_error rc stderr = "invalid_command") ∧
      (strContains (pyLower stderr) "not found" = false →
        strContains (pyLower stderr) "permission denied" = false →
        strContains (pyLower stderr) "invalid" = false →
        strContains (pyLower stderr) "usage:" = false →
        (rc ≠ 0 → classify_error rc stderr = "command_failed") ∧
        (rc = 0 → classify_error rc stderr = "success"))) := by
  unfold classify_error
  refine ⟨?_, ?_, ?_, ?_⟩
  · intro h; simp [h]
  · intro h; simp [h]
  · intro h; simp [h]
  · intro h1 h2 h3
    refine ⟨?_, ?_, ?_, ?_⟩ <;> intros <;> simp_all

/-- Witness for `classify_error_spec`: a clean completion with return
code 0 and empty stderr is classified as success. -/
theorem classify_error_spec_witness :
    classify_error 0 "" = "success" := by
  have h := (classify_error_spec 0 "").2.2.2
    (by decide) (by decide) (by decide)
  exact (h.2.2.2 (by decide) (by decide) (by decide) (by decide)).2 rfl

/-- C5: when execution exceeds the wall-clock timeout, `_run_command`
returns success = false, return code -1 and error kind `timeout`, and the
spawned external process is terminated before the result is returned. -/
theorem run_command_timeout_contract (command : List String) (timeout : Rat) :
    (run_command command timeout .exceedsTimeout).1.success = false ∧
    (run_command command timeout .exceedsTimeout).1.returncode = -1 ∧
    (run_command command timeout .exceedsTimeout).1.error_type = "timeout" ∧
    (run_command command timeout .exceedsTimeout).2 = true :=
  ⟨rfl, rfl, rfl, rfl⟩

/-- C10: with none of the three settings rows present, or with the
settings read failing, the effective settings are execution mode "open",
the built-in ten-keyword filter list and a 30-second timeout, and under
those settings every command is classified execute-now — the gateway
fails open. -/
theorem settings_fail_open :
    get_command_settings none none none =
      ⟨"open", DEFAULT_FILTER_KEYWORDS, 30⟩ ∧
    DEFAULT_FILTER_KEYWORDS.length = 10 ∧
    get_settings (.error ()) = ⟨"open", DEFAULT_FILTER_KEYWORDS, 30⟩ ∧
    ∀ command : String,
      classify command (get_command_settings none none none) = .execute_now := by
  refine ⟨rfl, rfl, rfl, fun command => ?_⟩
  simp [classify, get_command_settings, DEFAULT_EXECUTION_MODE]

/-- C2: policy classification depends only on the execution mode and the
command text — `closed` always queues with empty matched keywords; `open`
always executes immediately; `filter` queues exactly when some configured
keyword occurs as a substring of the lower-cased command, with the
matched set collected from the keyword list; on the concrete keywords rm
and sudo, "ls -la" executes immediately and "sudo rm -rf /tmp/x" is
queued with both keywords matched. -/
theorem classify_policy (command : String) (config : CommandSettings) :
    (config.execution_mode = "closed" →
      classify command config = .require_approval []) ∧
    (config.execution_mode = "open" →
      classify command config = .execute_now) ∧
    (config.execution_mode = "filter" →
      ((∀ k ∈ config.filter_keywords, strContains (pyLower command) k = false) →
        classify command config = .execute_now) ∧
      ((∃ k ∈ config.filter_keywords, strContains (pyLower command) k = true) →
        classify command config = .require_approval
          (config.filter_keywords.filter fun k => strContains (pyLower command) k))) ∧
    classify "ls -la" ⟨"filter", ["rm", "sudo"], 30⟩ = .execute_now ∧
    classify "sudo rm -rf /tmp/x" ⟨"filter", ["rm", "sudo"], 30⟩ =
      .require_approval ["rm", "sudo"] := by
  refine ⟨?_, ?_, ?_, by decide, by decide⟩
  · intro h; simp [classify, h]
  · intro h; simp [classify, h]
  · intro h
    constructor
    · intro hall
      have : config.filter_keywords.filter (fun k => strContains (pyLower command) k) = [] := by
        rw [List.filter_eq_nil_iff]
        intro k hk
        simp [hall k hk]
      simp [classify, h, this]
    · intro hex
      obtain ⟨k, hk, hks⟩ := hex
      have : config.filter_keywords.filter (fun k => strContains (pyLower command) k) ≠ [] := by
        intro hnil
        have := List.filter_eq_nil_iff.mp hnil k hk
        simp [hks] at this
      simp only [classify, h]
      simp [List.isEmpty_iff, this]

/-- Witness for `classify_policy`: under closed mode an arbitrary command
is queued with no matched keywords. -/
theorem classify_policy_witness :
    classify "echo hello" ⟨"closed", ["rm", "sudo"], 30⟩ = .require_approval [] :=
  (classify_policy "echo hello" ⟨"closed", ["rm", "sudo"], 30⟩).1 rfl

/-- C3, counterexample: a pending command created at time 0 with
`timeout_seconds = 1` is not timed out by a read occurring exactly one
second after creation — the sweep requires the elapsed time to be
strictly greater than the limit, so the row is still `pending` after a
read at elapsed time exactly 1s, where the claim requires any read at
elapsed time at least 1s to transition it. -/
theorem sweep_boundary_not_inclusive :
    ((list_pending_commands 1 ⟨"open", [], 30⟩ none none
        ⟨[⟨1, 1, "x", none, [], "pending", none, none, none, none, some 0, some 1⟩]⟩).1.rows.map
      PendingCommand.status) = ["pending"] := by
  norm_num [list_pending_commands, check_and_timeout_expired_commands, sweepRow]

/-- C3, amended: every read operation on the pending-command store (list,
count, get-by-id) first runs the timeout sweep, and the sweep transitions
every row still `pending` whose elapsed time since `created_at` strictly
exceeds its own `timeout_seconds` (or the current global default when
unset) to status `timeout`, setting `rejection_reason` to the message
naming the limit and `resolved_at` to the read time; in particular a row
with `timeout_seconds = 1` transitions on the first read that occurs
strictly more than one second after creation. -/
theorem read_sweeps_expired (now : Rat) (settings : CommandSettings)
    (sf : Option String) (af : Option Nat) (cid : Nat) (s : Store)
    (c : PendingCommand) (hc : c ∈ s.rows) (hp : c.status = "pending")
    (t : Rat) (hborn : c.created_at = some t)
    (hexp : now - t > ((c.timeout_seconds.getD settings.timeout_seconds : Int) : Rat)) :
    (list_pending_commands now settings sf af s).1 =
        check_and_timeout_expired_commands now settings s ∧
    (get_pending_count now settings s).1 =
        check_and_timeout_expired_commands now settings s ∧
    (get_pending_command now settings cid s).1 =
        check_and_timeout_expired_commands now settings s ∧
    sweepRow now settings.timeout_seconds c =
      { c with
        status := "timeout"
        resolved_at := some now
        rejection_reason :=
          some (timeoutMessage (c.timeout_seconds.getD settings.timeout_seconds)) } ∧
    sweepRow now settings.timeout_seconds c ∈
      (check_and_timeout_expired_commands now settings s).rows := by
  refine ⟨rfl, rfl, ?_, ?_, ?_⟩
  · cases hh : List.find? (fun c => decide (c.id = cid))
        (check_and_timeout_expired_commands now settings s).rows <;>
      simp [get_pending_command, hh]
  · unfold sweepRow
    rw [hp, hborn]
    simp [hexp]
  · exact List.mem_map_of_mem _ hc

/-- Witness for `read_sweeps_expired`: a row with a one-second timeout,
created at time 0 and read at time 2, becomes `timeout` with the
one-second message and `resolved_at = 2`. -/
theorem read_sweeps_expired_witness :
    sweepRow 2 30 ⟨1, 1, "x", none, [], "pending", none, none, none, none, some 0, some 1⟩ =
      { id := 1, assessment_id := 1, command := "x", phase := none, matched_keywords := [],
        status := "timeout", resolved_by := none,
        rejection_reason := some (timeoutMessage 1), resolved_at := some 2,
        execution_result := none, created_at := some 0, timeout_seconds := some 1 } :=
  (read_sweeps_expired 2 ⟨"open", [], 30⟩ none none 7
    ⟨[⟨1, 1, "x", none, [], "pending", none, none, none, none, some 0, some 1⟩]⟩
    ⟨1, 1, "x", none, [], "pending", none, none, none, none, some 0, some 1⟩
    (List.mem_singleton.mpr rfl) rfl 0 rfl (by norm_num)).2.2.2.1

/-- C8, counterexample: after a discover call that produced an empty list
(cache replaced by the empty list at time 0), a second call with
force_refresh = false only five seconds later — well inside the
30-second TTL window — invokes the runtime again (the cached empty list
is Python-falsy) and returns a different, non-empty list. -/
theorem discover_empty_cache_reinvokes :
    discover_containers ⟨[], 0⟩ 0 false (.result false true []) = ([], ⟨[], 0⟩, true) ∧
    (discover_containers ⟨[], 0⟩ 5 false
        (.result true true [some ⟨"exegol:latest", "e1", "running", "abcdef", "t"⟩])).2.2
      = true ∧
    (discover_containers ⟨[], 0⟩ 5 false
        (.result true true [some ⟨"exegol:latest", "e1", "running", "abcdef", "t"⟩])).1
      ≠ [] := by
  refine ⟨by decide, by decide, by decide⟩

/-- C8, amended: provided the first discover(force_refresh = false) call
returns a non-empty list, a second discover(force_refresh = false) call
within the 30-second TTL window of the resulting cache returns the
identical list without invoking the runtime; and
discover(force_refresh = true) always re-invokes the runtime and replaces
the cache and its timestamp wholesale. -/
theorem discover_cache_spec (st : CacheState) (now1 now2 : Rat)
    (r1 r2 : RunListOutcome)
    (h1 : (discover_containers st now1 false r1).1 ≠ [])
    (hfresh : now2 - (discover_containers st now1 false r1).2.1.cache_timestamp <
      (cache_ttl : Rat)) :
    discover_containers (discover_containers st now1 false r1).2.1 now2 false r2 =
      ((discover_containers st now1 false r1).1,
        (discover_containers st now1 false r1).2.1, false) ∧
    ∀ (st' : CacheState) (n : Rat) (r : RunListOutcome),
      discover_containers st' n true r =
        (dockerPsContainers r, ⟨dockerPsContainers r, n⟩, true) := by
  constructor
  · have hstate : (discover_containers st now1 false r1).2.1.containers_cache =
        (discover_containers st now1 false r1).1 := by
      unfold discover_containers
      split
      · rfl
      · rfl
    set p := discover_containers st now1 false r1 with hp
    have hcond : (!false && !p.2.1.containers_cache.isEmpty &&
        decide (now2 - p.2.1.cache_timestamp < (cache_ttl : Rat))) = true := by
      simp only [Bool.not_false, Bool.true_and, Bool.and_eq_true, decide_eq_true_eq,
        Bool.not_eq_true']
      refine ⟨?_, hfresh⟩
      rw [hstate]
      cases hcc : p.1 with
      | nil => exact absurd hcc h1
      | cons a l => rfl
    unfold discover_containers
    rw [if_pos hcond, hstate]
  · intro st' n r
    unfold discover_containers
    rfl

/-- Witness for `discover_cache_spec`: a refresh at time 0 finds one
Exegol container; a second call at time 5 serves the cache without a
runtime invocation. -/
theorem discover_cache_spec_witness :
    discover_containers
        (discover_containers ⟨[], 0⟩ 0 false
          (.result true true [some ⟨"exegol:latest", "e1", "running", "abcdef", "t"⟩])).2.1
        5 false (.result false false []) =
      ((discover_containers ⟨[], 0⟩ 0 false
          (.result true true [some ⟨"exegol:latest", "e1", "running", "abcdef", "t"⟩])).1,
        (discover_containers ⟨[], 0⟩ 0 false
          (.result true true [some ⟨"exegol:latest", "e1", "running", "abcdef", "t"⟩])).2.1,
        false) :=
  (discover_cache_spec ⟨[], 0⟩ 0 5
    (.result true true [some ⟨"exegol:latest", "e1", "running", "abcdef", "t"⟩])
    (.result false false []) (by decide)
    (by norm_num [discover_containers, dockerPsContainers, cache_ttl])).1

/-- C9: whenever discovery invokes the underlying list command and the
invocation fails — non-zero exit (spawn failures and timeouts are already
absorbed into success = false by `_run_command`), empty stdout, fully
malformed output, or a raised exception — the resulting container list is
empty; the embedding is a total function, so no exception reaches the
caller. -/
theorem discover_failure_empty (st : CacheState) (now : Rat) (force : Bool)
    (r : RunListOutcome)
    (hfail : r = .raises ∨
      (∃ se lines, r = .result false se lines) ∨
      (∃ su lines, r = .result su false lines) ∨
      (∃ su se lines, r = .result su se lines ∧ ∀ l ∈ lines, l = none)) :
    dockerPsContainers r = [] ∧
    ((discover_containers st now force r).2.2 = true →
      (discover_containers st now force r).1 = []) := by
  have hempty : dockerPsContainers r = [] := by
    rcases hfail with h | ⟨se, lines, h⟩ | ⟨su, lines, h⟩ | ⟨su, se, lines, h, hl⟩
    · simp [h, dockerPsContainers]
    · simp [h, dockerPsContainers]
    · simp [h, dockerPsContainers]
    · subst h
      simp only [dockerPsContainers]
      split
      · rw [List.filterMap_eq_nil_iff]
        intro a ha
        rw [hl a ha]
        rfl
      · rfl
  refine ⟨hempty, ?_⟩
  unfold discover_containers
  split
  · intro h
    simp at h
  · intro _
    exact hempty

/-- Witness for `discover_failure_empty`: with an empty cache and the
runtime raising, discovery invokes the runtime and returns the empty
list. -/
theorem discover_failure_empty_witness :
    (discover_containers ⟨[], 0⟩ 0 false .raises).1 = [] :=
  (discover_failure_empty ⟨[], 0⟩ 0 false .raises (Or.inl rfl)).2 (by decide)

/-- C6: replacement values per credential type — bearer_token and api_key
substitute the stored token; cookie substitutes the cookie value;
basic_auth substitutes the base64 of "username:password", with the exact
base64 of "u:p" being "dTpw"; ssh substitutes "username:password"
verbatim; custom substitutes the token when present and non-empty, else
the string form of custom_data, else the empty string; and all
occurrences of a resolved placeholder are replaced, case-sensitively and
exact-match only, as on the concrete command where both occurrences of
the upper-case token are replaced and the lower-case variant is left
untouched. -/
theorem substitution_values (cred : Credential) (tok v u pw cv : String) :
    (cred.credential_type = "bearer_token" → cred.token = some tok →
      replacementFor cred = some tok) ∧
    (cred.credential_type = "api_key" → cred.token = some tok →
      replacementFor cred = some tok) ∧
    (cred.credential_type = "cookie" → cred.cookie_value = some cv →
      replacementFor cred = some cv) ∧
    (cred.credential_type = "basic_auth" → cred.username = some u →
      cred.password = some pw →
      replacementFor cred = some (b64encode (u ++ ":" ++ pw))) ∧
    (cred.credential_type = "ssh" → cred.username = some u → cred.password = some pw →
      replacementFor cred = some (u ++ ":" ++ pw)) ∧
    (cred.credential_type = "custom" → cred.token = some tok → tok ≠ "" →
      replacementFor cred = some tok) ∧
    (cred.credential_type = "custom" → (cred.token = none ∨ cred.token = some "") →
      cred.custom_data = some v → replacementFor cred = some v) ∧
    (cred.credential_type = "custom" → (cred.token = none ∨ cred.token = some "") →
      cred.custom_data = none → replacementFor cred = some "") ∧
    b64encode "u:p" = "dTpw" ∧
    execute_command_with_credentials "curl -H {{TOK}} {{TOK}} {{tok}}"
        [⟨1, "bearer_token", "n", "{{TOK}}", some "X", none, none, none, none⟩] =
      .executed "curl -H X X {{tok}}" := by
  refine ⟨?_, ?_, ?_, ?_, ?_, ?_, ?_, ?_, by decide, by decide⟩
  · intro h ht
    simp [replacementFor, h, ht]
  · intro h ht
    simp [replacementFor, h, ht]
  · intro h hcv
    simp [replacementFor, h, hcv]
  · intro h hu hp
    simp [replacementFor, h, hu, hp, pyStr]
  · intro h hu hp
    simp [replacementFor, h, hu, hp, pyStr]
  · intro h ht hne
    simp [replacementFor, h, ht, hne]
  · intro h ht hv
    rcases ht with ht | ht <;> simp [replacementFor, h, ht, hv]
  · intro h ht hv
    rcases ht with ht | ht <;> simp [replacementFor, h, ht, hv]

/-- Witness for `substitution_values`: a basic_auth credential with
username "u" and password "p" substitutes the base64 of "u:p". -/
theorem substitution_values_witness :
    replacementFor ⟨1, "basic_auth", "n", "{{BA}}", none, some "u", some "p", none, none⟩ =
      some (b64encode ("u" ++ ":" ++ "p")) :=
  ((substitution_values
    ⟨1, "basic_auth", "n", "{{BA}}", none, some "u", some "p", none, none⟩
    "" "" "u" "p" "").2.2.2.1) rfl rfl rfl

/-- In the substitution loop, a placeholder with no matching credential
causes an error; when every credential in scope yields a replacement
value, that error is the 404 naming an unresolved placeholder. -/
theorem substLoop_failure (credentials : List Credential) :
    ∀ (ps : List String) (cmd : String),
      (∃ p ∈ ps, credsMapLookup credentials p = none) →
      (∃ e, substLoop credentials ps cmd = .error e) ∧
      ((∀ cred ∈ credentials, replacementFor cred ≠ none) →
        ∃ p, p ∈ ps ∧ credsMapLookup credentials p = none ∧
          substLoop credentials ps cmd = .error (.unresolved p)) := by
  intro ps
  induction ps with
  | nil =>
    intro cmd hsome
    obtain ⟨p, hp, _⟩ := hsome
    exact absurd hp (List.not_mem_nil p)
  | cons p rest ih =>
    intro cmd hsome
    cases hlk : credsMapLookup credentials p with
    | none =>
      refine ⟨⟨.unresolved p, by simp [substLoop, hlk]⟩, fun _ => ?_⟩
      exact ⟨p, List.mem_cons_self p rest, hlk, by simp [substLoop, hlk]⟩
    | some cred =>
      have htail : ∃ q ∈ rest, credsMapLookup credentials q = none := by
        obtain ⟨q, hq, hqn⟩ := hsome
        rcases List.mem_cons.mp hq with hq | hq
        · rw [hq] at hqn
          rw [hqn] at hlk
          cases hlk
        · exact ⟨q, hq, hqn⟩
      have hmem : cred ∈ credentials := by
        have := List.mem_of_find?_eq_some hlk
        exact List.mem_reverse.mp this
      cases hrep : replacementFor cred with
      | none =>
        refine ⟨⟨.typeError, by simp [substLoop, hlk, hrep]⟩, fun hwf => ?_⟩
        exact absurd hrep (hwf cred hmem)
      | some r =>
        obtain ⟨⟨e, he⟩, hnamed⟩ :=
          ih (pyReplace cmd (bracedToken p) r) htail
        refine ⟨⟨e, by simp [substLoop, hlk, hrep, he]⟩, fun hwf => ?_⟩
        obtain ⟨q, hq, hqn, heq⟩ := hnamed hwf
        exact ⟨q, List.mem_cons_of_mem p hq, hqn, by simp [substLoop, hlk, hrep, heq]⟩

/-- C7: if some placeholder token found in the submitted command has no
matching credential for the assessment, the request never reaches
execution; and whenever every credential yields a replacement value (no
NULL token/cookie column — there the code instead dies on a `TypeError`
before executing), the failure is the 404 error naming an unresolved
placeholder, with no partial substitution committed anywhere. -/
theorem unresolved_placeholder_fails (command : String) (credentials : List Credential)
    (hsome : ∃ p ∈ scanPlaceholders command, credsMapLookup credentials p = none) :
    (∀ c, execute_command_with_credentials command credentials ≠ .executed c) ∧
    ((∀ cred ∈ credentials, replacementFor cred ≠ none) →
      ∃ p, p ∈ scanPlaceholders command ∧ credsMapLookup credentials p = none ∧
        execute_command_with_credentials command credentials =
          .failed (.unresolved p)) := by
  obtain ⟨⟨e, he⟩, hnamed⟩ := substLoop_failure credentials (scanPlaceholders command)
    command hsome
  constructor
  · intro c hc
    unfold execute_command_with_credentials at hc
    rw [he] at hc
    simp at hc
  · intro hwf
    obtain ⟨p, hp, hnone, heq⟩ := hnamed hwf
    refine ⟨p, hp, hnone, ?_⟩
    unfold execute_command_with_credentials
    rw [heq]

/-- Witness for `unresolved_placeholder_fails`: a command with an
unresolvable placeholder and no credentials is never executed. -/
theorem unresolved_placeholder_fails_witness :
    execute_command_with_credentials "curl {{MISSING}}" [] ≠
      .executed "curl {{MISSING}}" :=
  (unresolved_placeholder_fails "curl {{MISSING}}" []
    ⟨"MISSING", by decide, rfl⟩).1 "curl {{MISSING}}"

/-- An update-by-id over the table leaves every row that is not `pending`
untouched, position included, when ids are unique: the found row is
`pending`, so a non-pending row cannot be the one with the matching id. -/
theorem updateById_preserves (s : Store) (cid : Nat) (cmd0 cmd' : PendingCommand)
    (hids : (s.rows.map PendingCommand.id).Nodup)
    (hfind : s.rows.find? (fun x => x.id = cid) = some cmd0)
    (hp : cmd0.status = "pending")
    (i : Nat) (c : PendingCommand) (hi : s.rows[i]? = some c)
    (hstat : c.status ≠ "pending") :
    (s.rows.map (fun x => if x.id = cid then cmd' else x))[i]? = some c := by
  have hcid : ¬ c.id = cid := by
    intro hceq
    have hmemc : c ∈ s.rows := List.getElem?_mem hi
    have hmem0 : cmd0 ∈ s.rows := List.mem_of_find?_eq_some hfind
    have h0id : cmd0.id = cid := by simpa using List.find?_some hfind
    have hceq0 : c = cmd0 :=
      List.inj_on_of_nodup_map hids hmemc hmem0 (by rw [hceq, h0id])
    exact hstat (hceq0 ▸ hp)
  rw [List.getElem?_map _ _ i, hi]
  simp [hcid]

/-- An update-by-id over the table can change only the found row, and
only into the supplied replacement. -/
theorem updateById_changes (s : Store) (cid : Nat) (cmd0 cmd' : PendingCommand)
    (hids : (s.rows.map PendingCommand.id).Nodup)
    (hfind : s.rows.find? (fun x => x.id = cid) = some cmd0)
    (i : Nat) (c c' : PendingCommand) (hi : s.rows[i]? = some c)
    (hi' : (s.rows.map (fun x => if x.id = cid then cmd' else x))[i]? = some c')
    (hne : c' ≠ c) :
    c = cmd0 ∧ c' = cmd' := by
  rw [List.getElem?_map _ _ i, hi] at hi'
  have hceq : (if c.id = cid then cmd' else c) = c' := by
    simpa using hi'
  by_cases hc : c.id = cid
  · have hc0 : c = cmd0 := by
      have hmemc : c ∈ s.rows := List.getElem?_mem hi
      have hmem0 : cmd0 ∈ s.rows := List.mem_of_find?_eq_some hfind
      have h0id : cmd0.id = cid := by simpa using List.find?_some hfind
      exact List.inj_on_of_nodup_map hids hmemc hmem0 (by rw [hc, h0id])
    rw [if_pos hc] at hceq
    exact ⟨hc0, hceq.symm⟩
  · rw [if_neg hc] at hceq
    exact absurd hceq.symm hne

/-- A row that is no longer `pending` is a fixed point of the sweep. -/
theorem sweepRow_resolved_fixed (now : Rat) (g : Int) (c : PendingCommand)
    (h : c.status ≠ "pending") : sweepRow now g c = c := by
  unfold sweepRow
  rw [if_neg h]

/-- Any row the sweep changes was `pending` and becomes `timeout` with
`resolved_at` stamped to the sweep time. -/
theorem sweepRow_changes (now : Rat) (g : Int) (c : PendingCommand)
    (h : sweepRow now g c ≠ c) :
    c.status = "pending" ∧ (sweepRow now g c).status = "timeout" ∧
      (sweepRow now g c).resolved_at = some now := by
  by_cases hp : c.status = "pending"
  · cases hca : c.created_at with
    | none =>
      have : sweepRow now g c = c := by simp [sweepRow, hp, hca]
      exact absurd this h
    | some t =>
      by_cases ht : now - t > ((c.timeout_seconds.getD g : Int) : Rat)
      · have hs : sweepRow now g c =
            { c with
              status := "timeout"
              resolved_at := some now
              rejection_reason :=
                some (timeoutMessage (c.timeout_seconds.getD g)) } := by
          simp [sweepRow, hp, hca, ht]
        rw [hs]
        exact ⟨hp, rfl, rfl⟩
      · have : sweepRow now g c = c := by simp [sweepRow, hp, hca, ht]
        exact absurd this h
  · exact absurd (sweepRow_resolved_fixed now g c hp) h

/-- C1: once a pending command's status has left `pending` it never
returns to `pending` and `resolved_at` is never written again — approve
and reject on a non-pending row answer `Conflict`, leave the table
untouched and never execute the command; under each of the three
transitions (approve, reject, timeout sweep), every row that is already
resolved is left exactly as it is; and any row an operation does change
was `pending` and moves to the operation's terminal status with
`resolved_at` set to the operation time, so `resolved_at` is set exactly
once, at the single transition out of `pending`. -/
theorem resolved_rows_final (s : Store) (cid : Nat) (who : String)
    (reason : Option String) (now : Rat) (er : ExecJson) (settings : CommandSettings)
    (hids : (s.rows.map PendingCommand.id).Nodup) :
    (∀ c, s.rows.find? (fun x => x.id = cid) = some c → c.status ≠ "pending" →
      approve_command cid who now er s = ⟨s, .error .Conflict, false⟩ ∧
      reject_command cid who reason now s = ⟨s, .error .Conflict, false⟩) ∧
    (∀ (i : Nat) (c : PendingCommand), s.rows[i]? = some c → c.status ≠ "pending" →
      (approve_command cid who now er s).store.rows[i]? = some c ∧
      (reject_command cid who reason now s).store.rows[i]? = some c ∧
      (check_and_timeout_expired_commands now settings s).rows[i]? = some c) ∧
    (∀ (i : Nat) (c c' : PendingCommand), s.rows[i]? = some c →
      (approve_command cid who now er s).store.rows[i]? = some c' → c' ≠ c →
      c.status = "pending" ∧ c'.status = "executed" ∧ c'.resolved_at = some now) ∧
    (∀ (i : Nat) (c c' : PendingCommand), s.rows[i]? = some c →
      (reject_command cid who reason now s).store.rows[i]? = some c' → c' ≠ c →
      c.status = "pending" ∧ c'.status = "rejected" ∧ c'.resolved_at = some now) ∧
    (∀ (i : Nat) (c c' : PendingCommand), s.rows[i]? = some c →
      (check_and_timeout_expired_commands now settings s).rows[i]? = some c' → c' ≠ c →
      c.status = "pending" ∧ c'.status = "timeout" ∧ c'.resolved_at = some now) := by
  refine ⟨?_, ?_, ?_, ?_, ?_⟩
  · intro c hfind hstat
    constructor
    · simp only [approve_command, hfind]
      rw [if_pos hstat]
    · simp only [reject_command, hfind]
      rw [if_pos hstat]
  · intro i c hi hstat
    refine ⟨?_, ?_, ?_⟩
    · cases hfind : s.rows.find? (fun x => decide (x.id = cid)) with
      | none => simpa [approve_command, hfind] using hi
      | some cmd0 =>
        by_cases hp0 : cmd0.status = "pending"
        · simp only [approve_command, hfind]
          rw [if_neg (not_not_intro hp0)]
          exact updateById_preserves s cid cmd0 _ hids hfind hp0 i c hi hstat
        · simp only [approve_command, hfind]
          rw [if_pos hp0]
          exact hi
    · cases hfind : s.rows.find? (fun x => decide (x.id = cid)) with
      | none => simpa [reject_command, hfind] using hi
      | some cmd0 =>
        by_cases hp0 : cmd0.status = "pending"
        · simp only [reject_command, hfind]
          rw [if_neg (not_not_intro hp0)]
          exact updateById_preserves s cid cmd0 _ hids hfind hp0 i c hi hstat
        · simp only [reject_command, hfind]
          rw [if_pos hp0]
          exact hi
    · simp only [check_and_timeout_expired_commands]
      rw [List.getElem?_map _ _ i, hi]
      simp [sweepRow_resolved_fixed now settings.timeout_seconds c hstat]
  · intro i c c' hi hi' hne
    revert hi'
    cases hfind : s.rows.find? (fun x => decide (x.id = cid)) with
    | none =>
      simp only [approve_command, hfind]
      intro hi'
      rw [hi] at hi'
      exact absurd (Option.some.inj hi').symm hne
    | some cmd0 =>
      by_cases hp0 : cmd0.status = "pending"
      · simp only [approve_command, hfind]
        rw [if_neg (not_not_intro hp0)]
        intro hi'
        obtain ⟨hc0, hc'⟩ := updateById_changes s cid cmd0 _ hids hfind i c c' hi hi' hne
        exact ⟨hc0 ▸ hp0, by rw [hc'], by rw [hc']⟩
      · simp only [approve_command, hfind]
        rw [if_pos hp0]
        intro hi'
        rw [hi] at hi'
        exact absurd (Option.some.inj hi').symm hne
  · intro i c c' hi hi' hne
    revert hi'
    cases hfind : s.rows.find? (fun x => decide (x.id = cid)) with
    | none =>
      simp only [reject_command, hfind]
      intro hi'
      rw [hi] at hi'
      exact absurd (Option.some.inj hi').symm hne
    | some cmd0 =>
      by_cases hp0 : cmd0.status = "pending"
      · simp only [reject_command, hfind]
        rw [if_neg (not_not_intro hp0)]
        intro hi'
        obtain ⟨hc0, hc'⟩ := updateById_changes s cid cmd0 _ hids hfind i c c' hi hi' hne
        exact ⟨hc0 ▸ hp0, by rw [hc'], by rw [hc']⟩
      · simp only [reject_command, hfind]
        rw [if_pos hp0]
        intro hi'
        rw [hi] at hi'
        exact absurd (Option.some.inj hi').symm hne
  · intro i c c' hi hi' hne
    have hc' : c' = sweepRow now settings.timeout_seconds c := by
      simp only [check_and_timeout_expired_commands] at hi'
      rw [List.getElem?_map _ _ i, hi] at hi'
      simpa using hi'.symm
    have hchg : sweepRow now settings.timeout_seconds c ≠ c := hc' ▸ hne
    obtain ⟨h1, h2, h3⟩ := sweepRow_changes now settings.timeout_seconds c hchg
    exact ⟨h1, by rw [hc']; exact h2, by rw [hc']; exact h3⟩

/-- Witness for `resolved_rows_final`: in a one-row table whose row is
already rejected, approving that row answers `Conflict`, changes nothing
and does not execute the command. -/
theorem resolved_rows_final_witness :
    approve_command 1 "admin" 9 ⟨"", "", 0, true⟩
        ⟨[⟨1, 1, "x", none, [], "rejected", some "bob", some "no", some 4, none,
          some 0, some 30⟩]⟩ =
      ⟨⟨[⟨1, 1, "x", none, [], "rejected", some "bob", some "no", some 4, none,
          some 0, some 30⟩]⟩, .error .Conflict, false⟩ :=
  ((resolved_rows_final
    ⟨[⟨1, 1, "x", none, [], "rejected", some "bob", some "no", some 4, none,
      some 0, some 30⟩]⟩ 1 "admin" none 9 ⟨"", "", 0, true⟩ ⟨"open", [], 30⟩
    (by decide)).1
    ⟨1, 1, "x", none, [], "rejected", some "bob", some "no", some 4, none,
      some 0, some 30⟩ (by decide) (by decide)).1

end AutoPentest
